import Mathlib

/-!
Shallow embedding of the `sphinx_click` package (files `sphinx_click/__init__.py`
and its directive front-end), a Sphinx extension that renders a click command
tree into reStructuredText lines.

Python strings are modelled as Lean `String`s; all Python string operations used
by the source (`split`, `strip`, `rstrip`, `lstrip`, `replace`, `expandtabs`,
`isspace`, f-string concatenation) are implemented structurally over `List Char`
so that every definition evaluates by kernel reduction.  Python `None`-able
values are modelled with `Option`; Python truthiness of strings is emptiness.
The docutils / Sphinx node machinery is external to the repository: a produced
node is modelled by the data the source puts into it (target id, raw content
lines).  The click library is likewise external: a command is modelled by the
attributes the source reads from it.
-/

/-- Characters Python treats as ASCII whitespace in `str.strip` and friends. -/
def pySpaceChars : List Char :=
  [' ', Char.ofNat 9, Char.ofNat 10, Char.ofNat 13, Char.ofNat 11, Char.ofNat 12]

/-- Whether a character is (ASCII) whitespace in Python's sense. -/
def isPySpace (c : Char) : Bool := pySpaceChars.contains c

/-- Python truthiness of a string: nonempty. -/
def pyTruthy (s : String) : Bool := !s.data.isEmpty

/-- Python `str.rstrip()` (whitespace variant). -/
def rstripStr (s : String) : String :=
  ((s.data.reverse.dropWhile isPySpace).reverse).asString

/-- Python `str.strip()` (whitespace variant). -/
def stripStr (s : String) : String :=
  (((s.data.dropWhile isPySpace).reverse.dropWhile isPySpace).reverse).asString

/-- Split a character list on a separator character; always returns at least one group. -/
def splitOnCharAux (sep : Char) : List Char → List (List Char)
  | [] => [[]]
  | c :: cs =>
    match splitOnCharAux sep cs with
    | [] => [[]]
    | g :: gs => if c = sep then [] :: g :: gs else (c :: g) :: gs

/-- Python `str.split(sep)` for a single-character separator. -/
def strSplitOnChar (sep : Char) (s : String) : List String :=
  (splitOnCharAux sep s.data).map List.asString

/-- Python `str.replace(old, new)` for single-character arguments. -/
def strReplaceChar (old new : Char) (s : String) : String :=
  (s.data.map (fun c => if c = old then new else c)).asString

/-- Join a list of strings with a separator (Python `sep.join(xs)`). -/
def joinSep (sep : String) : List String → String
  | [] => ""
  | [x] => x
  | x :: xs => x ++ sep ++ joinSep sep xs

/-- Column-tracking worker for Python `str.expandtabs(w)`. -/
def expandTabsAux (w : Nat) : List Char → Nat → List Char
  | [], _ => []
  | c :: cs, col =>
    if c = Char.ofNat 9 then
      let pad := w - col % w
      List.replicate pad ' ' ++ expandTabsAux w cs (col + pad)
    else if c = Char.ofNat 10 ∨ c = Char.ofNat 13 then
      c :: expandTabsAux w cs 0
    else
      c :: expandTabsAux w cs (col + 1)

/-- Python `str.expandtabs(w)`. -/
def expandtabs (w : Nat) (s : String) : String := (expandTabsAux w s.data 0).asString

/-- The whitespace conversion of docutils `string2lines`: form feed and vertical tab become spaces. -/
def convertWhitespace (s : String) : String :=
  (s.data.map (fun c => if c = Char.ofNat 11 ∨ c = Char.ofNat 12 then ' ' else c)).asString

/-- docutils `statemachine.string2lines(s, tab_width=4, convert_whitespace=True)`:
convert whitespace, split on newlines, expand tabs to width 4 and strip trailing whitespace. -/
def string2lines (s : String) : List String :=
  (strSplitOnChar (Char.ofNat 10) (convertWhitespace s)).map (fun l => rstripStr (expandtabs 4 l))

/-- Python `str.isspace()`: nonempty and all characters whitespace. -/
def pyIsspaceStr (s : String) : Bool := !s.data.isEmpty && s.data.all isPySpace

/-- A single-quote character as a string (used by the Python `repr` of strings). -/
def sqStr : String := String.singleton (Char.ofNat 39)

/-- Scalar Python values occurring as click parameter defaults. -/
inductive PyAtom where
  | bool (b : Bool)
  | int (n : Int)
  | str (s : String)

/-- Python `str()` of a scalar. -/
def pyAtomStr : PyAtom → String
  | .bool true => "True"
  | .bool false => "False"
  | .int n => toString n
  | .str s => s

/-- Python `repr()` of a scalar. -/
def pyAtomRepr : PyAtom → String
  | .bool true => "True"
  | .bool false => "False"
  | .int n => toString n
  | .str s => sqStr ++ s ++ sqStr

/-- A Python value usable as a click parameter default: a scalar, or a flat sequence
of scalars (the iterable-but-not-string case the source treats specially). -/
inductive PyValue where
  | scalar (a : PyAtom)
  | seq (xs : List PyAtom)

/-- Python `isinstance(v, Iterable) and not isinstance(v, str)` over modelled values. -/
def PyValue.isNonStrIterable : PyValue → Bool
  | .scalar _ => false
  | .seq _ => true

/-- Python `str()` of a modelled value. -/
def pyStr : PyValue → String
  | .scalar a => pyAtomStr a
  | .seq xs => "[" ++ joinSep ", " (xs.map pyAtomRepr) ++ "]"

/-- Python `repr()` of a modelled value. -/
def pyRepr : PyValue → String
  | .scalar a => pyAtomRepr a
  | .seq xs => "[" ++ joinSep ", " (xs.map pyAtomRepr) ++ "]"

/-- Python `repr()` of an optional value (`None` when absent). -/
def pyReprOpt : Option PyValue → String
  | none => "None"
  | some v => pyRepr v

/-- A click `show_default` attribute: a boolean, or (since Click 7.0) an explicit string. -/
inductive ShowDefault where
  | bool (b : Bool)
  | str (s : String)

/-- Python truthiness of a `show_default` value. -/
def ShowDefault.truthy : ShowDefault → Bool
  | .bool b => b
  | .str s => pyTruthy s

/-- Whether a click parameter is an Option or an Argument (its `isinstance` class). -/
inductive ParamKind where
  | option
  | argument
deriving DecidableEq

/-- A click parameter, carrying exactly the attributes the source reads. -/
structure Param where
  kind : ParamKind
  name : String
  opts : List String
  secondary_opts : List String
  is_flag : Bool
  count : Bool
  metavar : Option String
  required : Bool
  default : Option PyValue
  show_default : ShowDefault
  help : String
  hidden : Bool
  envvar : Option String
  human_readable_name : String
  nargs : Int
  choices : Option (List String)
  description : Option String

/-- A click command.  `commands` is the sub-command lookup (name-to-command mapping):
for an eager `click.Group` it is the `commands` attribute, for a lazily resolving
`click.MultiCommand` it is what `_get_lazyload_commands` builds from the
`list_commands` / `get_command` pair; both yield the same association, so the
model carries it directly.  `usagePieces` is the result of the external
`collect_usage_pieces` call (a black box per the click API). -/
inductive Cmd where
  | mk (name : String) (help : String) (short_help : String) (epilog : String)
       (hidden : Bool) (params : List Param) (commands : List (String × Cmd))
       (usagePieces : List String)

/-- Name of a command. -/
def Cmd.name : Cmd → String
  | .mk n _ _ _ _ _ _ _ => n

/-- Long help text of a command (empty string models `None`). -/
def Cmd.help : Cmd → String
  | .mk _ h _ _ _ _ _ _ => h

/-- Short help text of a command. -/
def Cmd.short_help : Cmd → String
  | .mk _ _ s _ _ _ _ _ => s

/-- Epilog text of a command. -/
def Cmd.epilog : Cmd → String
  | .mk _ _ _ e _ _ _ _ => e

/-- Hidden flag of a command. -/
def Cmd.hidden : Cmd → Bool
  | .mk _ _ _ _ h _ _ _ => h

/-- Declared parameters of a command, in declaration order. -/
def Cmd.params : Cmd → List Param
  | .mk _ _ _ _ _ p _ _ => p

/-- Sub-command lookup of a command. -/
def Cmd.commands : Cmd → List (String × Cmd)
  | .mk _ _ _ _ _ _ c _ => c

/-- Usage pieces collected by the external click formatter. -/
def Cmd.usagePieces : Cmd → List String
  | .mk _ _ _ _ _ _ _ u => u

instance : Inhabited Cmd := ⟨Cmd.mk "" "" "" "" false [] [] []⟩

/-- A `click.Context`: the command, the name it was invoked under, and the parent context. -/
inductive Context where
  | mk (command : Cmd) (info_name : String) (parent : Option Context)

/-- The command of a context. -/
def Context.command : Context → Cmd
  | .mk c _ _ => c

/-- The invocation name of a context. -/
def Context.info_name : Context → String
  | .mk _ i _ => i

/-- click `Context.command_path`: space-joined chain of invocation names. -/
def Context.command_path : Context → String
  | .mk _ i none => i
  | .mk _ i (some p) => p.command_path ++ " " ++ i

/-- Model of `_indent`: prefix four spaces to every line that is not pure whitespace. -/
def _indent (text : String) : String :=
  joinSep "\n" ((strSplitOnChar (Char.ofNat 10) text).map
    (fun line => if pyIsspaceStr line then line else "    " ++ line))

/-- Model of `_get_usage`: the non-prefixed usage line, command path followed by the
space-joined usage pieces.  The real function routes this text through click's
`HelpFormatter.write_usage` (an external collaborator); its terminal-width line
wrapping is elided, so the model returns the single unwrapped line. -/
def _get_usage (ctx : Context) : String :=
  ctx.command_path ++ " " ++ joinSep " " ctx.command.usagePieces

/-- click `parser.split_opt`: split an option spelling into its dash-like
decoration and the rest. -/
def split_opt (o : String) : String × String :=
  match o.data with
  | [] => ("", o)
  | c :: rest =>
    if c.isAlphanum then ("", o)
    else
      match rest with
      | c2 :: rest2 =>
        if c2 = c then (([c, c2]).asString, rest2.asString)
        else (String.singleton c, rest.asString)
      | [] => (String.singleton c, "")

/-- click `formatting.join_options`: stable-sort the spellings by decoration length
and join them with a comma. -/
def join_options (options : List String) : String :=
  let rv := options.map (fun o => ((split_opt o).1.data.length, o))
  joinSep ", " ((List.insertionSort (fun a b => a.1 ≤ b.1) rv).map Prod.snd)

/-- The characters `_get_help_record._write_opts` strips from the left of a metavar. -/
def metavarLstripChars : List Char := ['<', '[', Char.ofNat 123, '(', '$']

/-- The characters `_get_help_record._write_opts` strips from the right of a metavar. -/
def metavarRstripChars : List Char := ['>', ']', Char.ofNat 125, ')', '$']

/-- The inner `_write_opts` closure of `_get_help_record`: joined spellings, plus an
angle-bracketed value placeholder when the option takes a value. -/
def _write_opts (opt : Param) (opts : List String) : String :=
  let rv := join_options opts
  if !opt.is_flag && !opt.count then
    let nm :=
      match opt.metavar with
      | some m =>
        if pyTruthy m then
          (((m.data.dropWhile (metavarLstripChars.contains ·)).reverse.dropWhile
            (metavarRstripChars.contains ·)).reverse).asString
        else opt.name
      | none => opt.name
    rv ++ " <" ++ nm ++ ">"
  else rv

/-- The `out` list built by `_get_help_record` before extras: help text with a
required marker. -/
def _help_record_out (opt : Param) : List String :=
  if pyTruthy opt.help then
    if opt.required then ["**Required** " ++ opt.help] else [opt.help]
  else
    if opt.required then ["**Required**"] else []

/-- The default line of `_get_help_record`: present exactly when the default is not
`None` and `show_default` is truthy; an explicit `show_default` string wins, an
iterable non-string default is comma-joined, anything else is `str()`-rendered. -/
def _help_record_default_extras (opt : Param) : List String :=
  match opt.default with
  | none => []
  | some d =>
    if opt.show_default.truthy then
      match opt.show_default with
      | .str s => [":default: " ++ s]
      | .bool _ =>
        match d with
        | .seq xs => [":default: " ++ joinSep ", " (xs.map pyAtomStr)]
        | .scalar a => [":default: " ++ pyAtomStr a]
    else []

/-- The `extras` list of `_get_help_record`: the default line followed by the
choices line of a `click.Choice`-typed option. -/
def _help_record_extras (opt : Param) : List String :=
  _help_record_default_extras opt ++
    (match opt.choices with
     | some cs => [":options: " ++ joinSep " | " cs]
     | none => [])

/-- The final `out` list of `_get_help_record`: help body and extras, separated by
a blank line when both are present. -/
def _help_record_body (opt : Param) : List String :=
  let out := _help_record_out opt
  let extras := _help_record_extras opt
  if extras.isEmpty then out
  else (if out.isEmpty then out else out ++ [""]) ++ extras

/-- Model of `_get_help_record`: comma-joined labels and the newline-joined body. -/
def _get_help_record (opt : Param) : String × String :=
  let rv := [_write_opts opt opt.opts] ++
    (if opt.secondary_opts.isEmpty then [] else [_write_opts opt opt.secondary_opts])
  (joinSep ", " rv, joinSep "\n" (_help_record_body opt))

/-- The backspace toggle of `_format_description`: a line consisting of the control
character 0x08 switches bar-quoting on, a blank line switches it off. -/
def descBarLines : List String → Bool → List String
  | [], _ => []
  | line :: rest, bar_enabled =>
    if line = String.singleton (Char.ofNat 8) then descBarLines rest true
    else
      let bar := if line = "" then false else bar_enabled
      (if bar then "| " ++ line else line) :: descBarLines rest bar

/-- Model of `_format_description`: the help text (falling back to short help),
rendered line by line with the no-rewrap bar toggle, plus a trailing blank. -/
def _format_description (ctx : Context) : List String :=
  let help_string := if pyTruthy ctx.command.help then ctx.command.help else ctx.command.short_help
  if pyTruthy help_string then descBarLines (string2lines help_string) false ++ [""]
  else []

/-- Model of `_format_usage`: a shell code block holding the indented usage lines. -/
def _format_usage (ctx : Context) : List String :=
  [".. code-block:: shell", ""] ++
    ((strSplitOnChar (Char.ofNat 10) (_get_usage ctx)).map _indent) ++ [""]

/-- Model of `_format_option`: the option directive line, then the indented body
lines when the body is nonempty. -/
def _format_option (opt : Param) : List String :=
  let opt_help := _get_help_record opt
  [".. option:: " ++ opt_help.1] ++
    (if pyTruthy opt_help.2 then [""] ++ (string2lines opt_help.2).map _indent else [])

/-- Model of `_format_options`: every non-hidden `click.Option`, each followed by a
blank line. -/
def _format_options (ctx : Context) : List String :=
  (ctx.command.params.filter (fun p => p.kind == ParamKind.option && !p.hidden)).flatMap
    (fun p => _format_option p ++ [""])

/-- The `Plural("argument", "argument(s)")` word: singular exactly for arity 1. -/
def _argument_plural (nargs : Int) : String :=
  if nargs = 1 then "argument" else "argument(s)"

/-- The required/optional tail of `_format_argument`: required arguments get only
the Required sentence, optional ones additionally get a Default line rendering
the `repr` of the default (which is `None` when absent). -/
def _format_argument_tail (arg : Param) : List String :=
  if arg.required then ["    Required " ++ _argument_plural arg.nargs ++ "."]
  else ["    Optional " ++ _argument_plural arg.nargs ++ ".",
        "    Default ``" ++ pyReprOpt arg.default ++ "``"]

/-- Model of `_format_argument`: directive line, optional description block, then
the required/optional tail. -/
def _format_argument (arg : Param) : List String :=
  [".. option:: " ++ arg.human_readable_name, ""] ++
    (match arg.description with
     | some d => [_indent d, ""]
     | none => []) ++
    _format_argument_tail arg

/-- Model of `_format_arguments`: every `click.Argument`, each followed by a blank line. -/
def _format_arguments (ctx : Context) : List String :=
  (ctx.command.params.filter (fun p => p.kind == ParamKind.argument)).flatMap
    (fun p => _format_argument p ++ [""])

/-- Python truthiness of the probed `envvar` attribute. -/
def envvarTruthy (p : Param) : Bool :=
  match p.envvar with
  | some s => pyTruthy s
  | none => false

/-- Model of `_format_envvar`: the envvar directive and the cross-reference to the
owning parameter.  click guarantees an Option has at least one spelling; the
`headD` models the Python `param_ref[0]` subscript under that invariant. -/
def _format_envvar (param : Param) : List String :=
  [".. envvar:: " ++ param.envvar.getD "", "    :noindex:", ""] ++
    (if param.kind == ParamKind.argument then
      ["    Provides a default for :option:`" ++ param.human_readable_name ++ "`"]
    else
      ["    Provides a default for :option:`" ++ joinSep " / " param.opts ++
        " <" ++ param.opts.headD "" ++ ">`"])

/-- Model of `_format_envvars`: for every parameter with a truthy `envvar` binding
(hidden or not), an anchor built from the dashed command path, the parameter name
and the envvar, followed by the envvar entry. -/
def _format_envvars (ctx : Context) : List String :=
  (ctx.command.params.filter envvarTruthy).flatMap
    (fun param =>
      [".. _" ++ strReplaceChar ' ' '-' ctx.command_path ++ "-" ++ param.name ++ "-" ++
        param.envvar.getD "" ++ ":", ""] ++
      _format_envvar param ++ [""])

/-- Model of `_format_subcommand`: the object line, and the indented help when present. -/
def _format_subcommand (command : Cmd) : List String :=
  [".. object:: " ++ command.name] ++
    (if pyTruthy command.help then [""] ++ (string2lines command.help).map _indent else [])

/-- Model of `_format_epilog`: the epilog lines plus a trailing blank, when present. -/
def _format_epilog (ctx : Context) : List String :=
  if pyTruthy ctx.command.epilog then string2lines ctx.command.epilog ++ [""]
  else []

/-- Dictionary lookup in the sub-command mapping (first binding of the name). -/
def lookupFind (lookup : List (String × Cmd)) (n : String) : Option Cmd :=
  (lookup.find? (fun kv => kv.1 == n)).map Prod.snd

/-- Boolean lexicographic comparison of character lists by code point: the order
Python uses to sort strings. -/
def strLeB : List Char → List Char → Bool
  | [], _ => true
  | _ :: _, [] => false
  | a :: as, b :: bs =>
    if a.toNat < b.toNat then true
    else if b.toNat < a.toNat then false
    else strLeB as bs

/-- The key order of `sorted(lookup.values(), key=attrgetter("name"))`. -/
def cmdNameLE (a b : Cmd) : Prop := strLeB a.name.data b.name.data = true

instance : DecidableRel cmdNameLE := fun _ _ => inferInstanceAs (Decidable (_ = true))

/-- Model of `_filter_commands`: with no filter string, all sub-commands sorted by
name; with a filter string, the commands named by the comma-separated, stripped
tokens, unknown tokens silently dropped. -/
def _filter_commands (ctx : Context) (commands : Option String) : List Cmd :=
  let lookup := ctx.command.commands
  match commands with
  | none => List.insertionSort cmdNameLE (lookup.map Prod.snd)
  | some s => ((strSplitOnChar ',' s).map stripStr).filterMap (lookupFind lookup)

/-- The `:nested:` disclosure mode (`NestedOption` in the source). -/
inductive NestedOption where
  | NESTED_FULL
  | NESTED_SHORT
  | NESTED_NONE
deriving DecidableEq

/-- The options block of `_format_command`: rubric only over a nonempty body. -/
def optionsSection (ctx : Context) : List String :=
  let lines := _format_options ctx
  (if lines.isEmpty then [] else [".. rubric:: Options", ""]) ++ lines

/-- The arguments block of `_format_command`: rubric only over a nonempty body. -/
def argumentsSection (ctx : Context) : List String :=
  let lines := _format_arguments ctx
  if lines.isEmpty then [] else [".. rubric:: Arguments", ""] ++ lines

/-- The environment-variables block of `_format_command`: rubric only over a
nonempty body. -/
def envvarsSection (ctx : Context) : List String :=
  let lines := _format_envvars ctx
  if lines.isEmpty then [] else [".. rubric:: Environment variables", ""] ++ lines

/-- The commands block of `_format_command`: skipped under `full` and `none`;
otherwise the rubric is emitted whenever the filtered list is nonempty, and
each non-hidden filtered sub-command is listed as a stub.  `nested` is the
converted directive option, `none` modelling the unset default. -/
def commandsSection (ctx : Context) (nested : Option NestedOption)
    (commands : Option String) : List String :=
  if nested = some NestedOption.NESTED_FULL ∨ nested = some NestedOption.NESTED_NONE then []
  else
    let cmds := _filter_commands ctx commands
    (if cmds.isEmpty then [] else [".. rubric:: Commands", ""]) ++
      cmds.flatMap (fun command =>
        if command.hidden then [] else _format_subcommand command ++ [""])

/-- Model of `_format_command`: hidden commands yield nothing; otherwise the
description, program directive, usage block and the conditional sections, in the
fixed source order. -/
def _format_command (ctx : Context) (nested : Option NestedOption)
    (commands : Option String := none) : List String :=
  if ctx.command.hidden then []
  else
    _format_description ctx
      ++ [".. program:: " ++ ctx.command_path]
      ++ _format_usage ctx
      ++ optionsSection ctx
      ++ argumentsSection ctx
      ++ envvarsSection ctx
      ++ _format_epilog ctx
      ++ commandsSection ctx nested commands

/-- A node produced by the directive, reduced to the data the source stores in it:
the anchor target (its id) or the parsed paragraph (its raw content lines). -/
inductive GenNode where
  | target (targetid : String)
  | paragraph (rawLines : List String)

/-- Content lines of a produced node (empty for an anchor target). -/
def GenNode.contentLines : GenNode → List String
  | .target _ => []
  | .paragraph ls => ls

/-- The directive-level errors `ClickDirective.run` can raise after the module has
been loaded (module loading itself is external I/O and outside the model). -/
inductive DirectiveError where
  | prog_missing
  | nested_show_nested_conflict
deriving DecidableEq

/-- The recognized directive options, after conversion: `prog`, the converted
`:nested:` value, the `commands` filter string, and whether the deprecated
`show-nested` flag was present. -/
structure DirectiveOptions where
  prog : Option String
  nested : Option NestedOption
  commands : Option String
  show_nested : Bool

/-- Model of the `nested_option` converter: empty becomes `None`, the three
allowed words convert, anything else raises a `ValueError`. -/
def nested_option (argument : String) : Except String (Option NestedOption) :=
  if argument = "" then .ok none
  else if argument = "full" then .ok (some NestedOption.NESTED_FULL)
  else if argument = "short" then .ok (some NestedOption.NESTED_SHORT)
  else if argument = "none" then .ok (some NestedOption.NESTED_NONE)
  else .error "not a valid value for :nested:"

namespace ClickDirective

/-- Model of `ClickDirective._generate_nodes`: hidden commands yield no nodes;
otherwise a fresh target (its serial number supplied by the caller, standing for
`env.new_serialno`) and one paragraph node holding the assembled lines. -/
def _generate_nodes (serial : Nat) (name : String) (command : Cmd)
    (parent : Option Context) (nested : Option NestedOption)
    (commands : Option String) : List GenNode :=
  if command.hidden then []
  else
    let targetid := "click-" ++ toString serial
    let ctx := Context.mk command name parent
    let content := _format_command ctx nested commands
    [GenNode.target targetid, GenNode.paragraph content]

/-- Model of `ClickDirective.run` after module loading: check `prog`, resolve the
`show-nested` / `nested` interaction (the boolean in the result records whether
the deprecation warning was emitted), and generate the nodes exactly once. -/
def run (command : Cmd) (opts : DirectiveOptions) (serial : Nat) :
    Except DirectiveError (Bool × List GenNode) :=
  match opts.prog with
  | none => .error DirectiveError.prog_missing
  | some prog_name =>
    if opts.show_nested then
      match opts.nested with
      | some _ => .error DirectiveError.nested_show_nested_conflict
      | none =>
        .ok (true, _generate_nodes serial prog_name command none
          (some NestedOption.NESTED_FULL) opts.commands)
    else
      .ok (false, _generate_nodes serial prog_name command none opts.nested opts.commands)

end ClickDirective

/-- A command with the hidden options (and only those) removed; used to state that
the options section carries no information about hidden options. -/
def removeHiddenOptions : Cmd → Cmd
  | .mk n h sh ep hid params cmds up =>
    .mk n h sh ep hid (params.filter (fun p => !(p.kind == ParamKind.option && p.hidden)))
      cmds up

/-- Whether a rendered line is the Default line of the argument formatter
(it opens with the thirteen characters of the Default marker and a backtick pair). -/
def isDefaultLine (l : String) : Bool := l.data.take 14 == "    Default ``".data

/-- A plain non-required option fixture with no default, no help and no envvar. -/
def baseOpt : Param :=
  { kind := .option, name := "param", opts := ["--param"], secondary_opts := [],
    is_flag := false, count := false, metavar := none, required := false,
    default := none, show_default := .bool false, help := "", hidden := false,
    envvar := none, human_readable_name := "PARAM", nargs := 1, choices := none,
    description := none }

/-- A hidden option carrying an environment-variable binding. -/
def secretOpt : Param :=
  { baseOpt with
    name := "secret", opts := ["--secret"], hidden := true, envvar := some "SECRET" }

/-- A command whose only parameter is the hidden, envvar-bound option. -/
def secretCmd : Cmd := Cmd.mk "tool" "" "" "" false [secretOpt] [] ["[OPTIONS]"]

/-- Root context over `secretCmd`. -/
def secretCtx : Context := Context.mk secretCmd "tool" none

/-- An option with the falsy-but-not-None default `0` and `show_default=True`. -/
def zeroOpt : Param :=
  { baseOpt with default := some (.scalar (.int 0)), show_default := .bool true }

/-- A non-required click argument with no default. -/
def optArg : Param :=
  { baseOpt with
    kind := .argument, name := "arg", opts := [], human_readable_name := "ARG" }

/-- A command with no parameters, no help text and no sub-commands. -/
def emptyCmd : Cmd := Cmd.mk "noargs" "" "" "" false [] [] ["[OPTIONS]"]

/-- Root context over `emptyCmd`. -/
def emptyCtx : Context := Context.mk emptyCmd "noargs" none

/-- A hidden command. -/
def hiddenCmd : Cmd := Cmd.mk "hid" "" "" "" true [] [] ["[OPTIONS]"]

/-- Root context over `hiddenCmd`. -/
def hiddenCtx : Context := Context.mk hiddenCmd "hid" none

/-- A hidden sub-command. -/
def ghostSub : Cmd := Cmd.mk "ghost" "" "" "" true [] [] ["[OPTIONS]"]

/-- A group whose only sub-command is hidden. -/
def ghostGroup : Cmd :=
  Cmd.mk "cli2" "" "" "" false [] [("ghost", ghostSub)] ["[OPTIONS] COMMAND [ARGS]..."]

/-- Root context over `ghostGroup`. -/
def ghostCtx : Context := Context.mk ghostGroup "cli2" none

/-- A second hidden sub-command (distinct fixture for a distinct claim). -/
def stealthSub : Cmd := Cmd.mk "secretcmd" "" "" "" true [] [] ["[OPTIONS]"]

/-- A second group whose only sub-command is hidden. -/
def stealthGroup : Cmd :=
  Cmd.mk "cli3" "" "" "" false [] [("secretcmd", stealthSub)] ["[OPTIONS] COMMAND [ARGS]..."]

/-- Root context over `stealthGroup`. -/
def stealthCtx : Context := Context.mk stealthGroup "cli3" none

/-- A plain sub-command with help text. -/
def helloCmd : Cmd := Cmd.mk "hello" "A sample command." "" "" false [] [] ["[OPTIONS]"]

/-- A group with the one non-hidden sub-command `hello`. -/
def cliGroup : Cmd :=
  Cmd.mk "cli" "A sample command group." "" "" false [] [("hello", helloCmd)]
    ["[OPTIONS] COMMAND [ARGS]..."]

/-- Directive options selecting `nested=full` over `cliGroup`. -/
def cliFullOpts : DirectiveOptions :=
  { prog := some "cli", nested := some NestedOption.NESTED_FULL, commands := none,
    show_nested := false }

/-- The assembled lines for `cliGroup` under `nested=full`. -/
def cliFullLines : List String :=
  _format_command (Context.mk cliGroup "cli" none) (some NestedOption.NESTED_FULL) none

/-- Directive options supplying only the deprecated `show-nested` flag. -/
def snOpts : DirectiveOptions :=
  { prog := some "cli", nested := none, commands := none, show_nested := true }

/-- Sub-command fixtures for the filter-ordering claims. -/
def alphaCmd : Cmd := Cmd.mk "alpha" "" "" "" false [] [] ["[OPTIONS]"]

/-- Second sub-command fixture. -/
def betaCmd : Cmd := Cmd.mk "beta" "" "" "" false [] [] ["[OPTIONS]"]

/-- Third sub-command fixture. -/
def gammaCmd : Cmd := Cmd.mk "gamma" "" "" "" false [] [] ["[OPTIONS]"]

/-- A group with the three sub-commands alpha, beta and gamma. -/
def greekGroup : Cmd :=
  Cmd.mk "greek" "" "" "" false []
    [("alpha", alphaCmd), ("beta", betaCmd), ("gamma", gammaCmd)]
    ["[OPTIONS] COMMAND [ARGS]..."]

/-- Root context over `greekGroup`. -/
def greekCtx : Context := Context.mk greekGroup "greek" none

theorem strLeB_total (x y : List Char) : strLeB x y = true ∨ strLeB y x = true := by
  induction x generalizing y with
  | nil => left; rfl
  | cons a as ih =>
    cases y with
    | nil => right; rfl
    | cons b bs =>
      by_cases h1 : a.toNat < b.toNat
      · left; simp [strLeB, h1]
      · by_cases h2 : b.toNat < a.toNat
        · right; simp [strLeB, h2]
        · rcases ih bs with h | h
          · left; simp [strLeB, h1, h2, h]
          · right; simp [strLeB, h1, h2, h]

theorem strLeB_trans (x y z : List Char) (hxy : strLeB x y = true) (hyz : strLeB y z = true) :
    strLeB x z = true := by
  induction x generalizing y z with
  | nil => rfl
  | cons a as ih =>
    cases y with
    | nil => simp [strLeB] at hxy
    | cons b bs =>
      cases z with
      | nil => simp [strLeB] at hyz
      | cons c cs =>
        simp only [strLeB] at hxy hyz ⊢
        by_cases hab : a.toNat < b.toNat <;> by_cases hbc : b.toNat < c.toNat <;>
          by_cases hba : b.toNat < a.toNat <;> by_cases hcb : c.toNat < b.toNat <;>
            simp [hab, hbc, hba, hcb] at hxy hyz ⊢ <;>
              first
                | omega
                | exact Or.inl (by omega)
                | exact Or.inr ⟨by omega, ih bs cs hxy hyz⟩

instance : IsTotal Cmd cmdNameLE := ⟨fun a b => strLeB_total a.name.data b.name.data⟩

instance : IsTrans Cmd cmdNameLE :=
  ⟨fun _ _ _ h1 h2 => strLeB_trans _ _ _ h1 h2⟩

theorem filterMap_eq_filter_map {α β : Type} [Inhabited β] (f : α → Option β) (l : List α) :
    l.filterMap f = (l.filter (fun a => (f a).isSome)).map (fun a => (f a).getD default) := by
  induction l with
  | nil => rfl
  | cons a l ih =>
    cases h : f a with
    | none => simp [List.filterMap_cons, List.filter_cons, h, ih]
    | some b => simp [List.filterMap_cons, List.filter_cons, h, ih]

theorem count_name_filterMap (lookup : List (String × Cmd)) (n : String) (c : Cmd)
    (h : lookupFind lookup n = some c) (tokens : List String) :
    List.count n tokens ≤
      List.count c.name ((tokens.filterMap (lookupFind lookup)).map Cmd.name) := by
  induction tokens with
  | nil => simp
  | cons t ts ih =>
    by_cases ht : t = n
    · subst ht
      simp only [List.filterMap_cons, h, List.map_cons, List.count_cons, beq_self_eq_true,
        if_true]
      omega
    · have hnt : (t == n) = false := beq_false_of_ne ht
      cases hft : lookupFind lookup t with
      | none =>
        simp [List.filterMap_cons, hft, List.count_cons, hnt]
        exact ih
      | some c2 =>
        by_cases h2 : (c2.name == c.name) = true
        · simp [List.filterMap_cons, hft, List.map_cons, List.count_cons, hnt, h2]
          omega
        · simp only [Bool.not_eq_true] at h2
          simp [List.filterMap_cons, hft, List.map_cons, List.count_cons, hnt, h2]
          exact ih

theorem mem_commandsSection_iff (ctx : Context) (nested : Option NestedOption)
    (commands : Option String) :
    ".. rubric:: Commands" ∈ commandsSection ctx nested commands ↔
      (¬(nested = some NestedOption.NESTED_FULL ∨ nested = some NestedOption.NESTED_NONE) ∧
        _filter_commands ctx commands ≠ []) := by
  by_cases hn : nested = some NestedOption.NESTED_FULL ∨ nested = some NestedOption.NESTED_NONE
  · simp [commandsSection, hn]
  · cases hc : _filter_commands ctx commands with
    | nil => simp [commandsSection, hn, hc]
    | cons d ds => simp [commandsSection, hn, hc]

theorem mem_optionsSection_iff (ctx : Context) :
    ".. rubric:: Options" ∈ optionsSection ctx ↔ _format_options ctx ≠ [] := by
  cases h : _format_options ctx with
  | nil => simp [optionsSection, h]
  | cons l ls => simp [optionsSection, h]

theorem mem_argumentsSection_iff (ctx : Context) :
    ".. rubric:: Arguments" ∈ argumentsSection ctx ↔ _format_arguments ctx ≠ [] := by
  cases h : _format_arguments ctx with
  | nil => simp [argumentsSection, h]
  | cons l ls => simp [argumentsSection, h]

theorem mem_envvarsSection_iff (ctx : Context) :
    ".. rubric:: Environment variables" ∈ envvarsSection ctx ↔ _format_envvars ctx ≠ [] := by
  cases h : _format_envvars ctx with
  | nil => simp [envvarsSection, h]
  | cons l ls => simp [envvarsSection, h]

theorem isDefaultLine_append (r : String) : isDefaultLine ("    Default ``" ++ r) = true := by
  have h2 : ("    Default ``" ++ r).data = "    Default ``".data ++ r.data :=
    String.data_append ..
  have h3 : "    Default ``".data.length = 14 := rfl
  simp only [isDefaultLine, h2]
  rw [← h3, List.take_left]
  simp

/-- C1 (counterexample): for the group `cli` with the non-hidden sub-command `hello`
and `nested=full`, the directive produces exactly one anchor and one paragraph —
the root section only — and that output contains neither a program directive nor
an object stub for `hello`, contradicting the claim that each listed sub-command
is expanded into its own full section. -/
theorem C1_counterexample :
    ClickDirective.run cliGroup cliFullOpts 0 =
      Except.ok (false, [GenNode.target "click-0", GenNode.paragraph cliFullLines]) ∧
    ".. program:: cli hello" ∉ cliFullLines ∧
    ".. object:: hello" ∉ cliFullLines := by
  exact ⟨rfl, by decide, by decide⟩

/-- C1 (amended): under `nested=full` the node generator is invoked exactly once,
for the root command only: `run` returns one anchor target and one paragraph
holding the root command's own section, and the commands section of that output
is empty, so sub-commands are not expanded anywhere. -/
theorem C1_run_full_generates_only_root (command : Cmd) (opts : DirectiveOptions)
    (serial : Nat) (p : String) (hprog : opts.prog = some p)
    (hsn : opts.show_nested = false) (hfull : opts.nested = some NestedOption.NESTED_FULL)
    (hhid : command.hidden = false) :
    ClickDirective.run command opts serial =
      Except.ok (false, [GenNode.target ("click-" ++ toString serial),
        GenNode.paragraph (_format_command (Context.mk command p none)
          (some NestedOption.NESTED_FULL) opts.commands)]) ∧
    commandsSection (Context.mk command p none) (some NestedOption.NESTED_FULL)
      opts.commands = [] := by
  constructor
  · simp [ClickDirective.run, ClickDirective._generate_nodes, hprog, hsn, hfull, hhid]
  · simp [commandsSection]

/-- C1 (witness): the amended theorem applied to the concrete `cli` group. -/
theorem C1_witness :
    ClickDirective.run cliGroup cliFullOpts 0 =
      Except.ok (false, [GenNode.target ("click-" ++ toString 0),
        GenNode.paragraph (_format_command (Context.mk cliGroup "cli" none)
          (some NestedOption.NESTED_FULL) cliFullOpts.commands)]) ∧
    commandsSection (Context.mk cliGroup "cli" none) (some NestedOption.NESTED_FULL)
      cliFullOpts.commands = [] :=
  C1_run_full_generates_only_root cliGroup cliFullOpts 0 "cli" rfl rfl rfl rfl

/-- C2 (counterexample): the hidden option `secretOpt` carries the envvar binding
`SECRET`, and its envvar entry appears in the produced line sequence of its
command, contradicting the claim that hidden options appear nowhere. -/
theorem C2_counterexample :
    secretOpt.hidden = true ∧ secretOpt.kind = ParamKind.option ∧
    ".. envvar:: SECRET" ∈ _format_command secretCtx (some NestedOption.NESTED_SHORT) none := by
  exact ⟨rfl, rfl, by decide⟩

/-- C2 (amended): hidden options never appear in the Options section — its lines
are unchanged when every hidden option is deleted from the command — but the
Environment-variables section covers every parameter with an envvar binding,
hidden options included. -/
theorem C2_hidden_options_invisible_in_options (c : Cmd) (info : String)
    (par : Option Context) :
    _format_options (Context.mk c info par) =
      _format_options (Context.mk (removeHiddenOptions c) info par) := by
  cases c with
  | mk n h sh ep hid params cmds up =>
    simp only [_format_options, removeHiddenOptions, Context.command, Cmd.params,
      List.filter_filter]
    congr 1
    apply List.filter_congr
    intro p _
    cases hk : p.kind == ParamKind.option <;> cases hh : p.hidden <;> simp [hk, hh]

/-- C3 (confirmed): with no filter string the command filter returns all
sub-commands sorted by name (sorted and a permutation of the lookup values);
with a filter string it returns, in token order, exactly the commands whose
trimmed token is present in the lookup, unknown tokens silently dropped; on the
concrete group with sub-commands alpha, beta, gamma the filter string
"gamma, alpha" yields exactly gamma then alpha. -/
theorem C3_filter_commands (ctx : Context) (s : String) :
    List.Sorted cmdNameLE (_filter_commands ctx none) ∧
    (_filter_commands ctx none).Perm (ctx.command.commands.map Prod.snd) ∧
    _filter_commands ctx (some s) =
      (((strSplitOnChar ',' s).map stripStr).filter
        (fun n => (lookupFind ctx.command.commands n).isSome)).map
        (fun n => (lookupFind ctx.command.commands n).getD default) ∧
    (_filter_commands greekCtx (some "gamma, alpha")).map Cmd.name = ["gamma", "alpha"] := by
  refine ⟨List.sorted_insertionSort cmdNameLE _, List.perm_insertionSort cmdNameLE _, ?_,
    by decide⟩
  simp only [_filter_commands]
  exact filterMap_eq_filter_map _ _

theorem mem_body_of_mem_extras (opt : Param) (l : String)
    (hl : l ∈ _help_record_extras opt) : l ∈ _help_record_body opt := by
  unfold _help_record_body
  cases hE : _help_record_extras opt with
  | nil =>
    rw [hE] at hl
    cases hl
  | cons x xs =>
    rw [hE] at hl
    simp only [hE, List.isEmpty_cons, Bool.false_eq_true, if_false]
    exact List.mem_append_right _ hl

/-- C4 (confirmed): the option formatter renders a default line exactly when the
default is not None and `show_default` is truthy — so falsy-but-not-None defaults
such as 0 still render (`default=0, show_default=True` yields exactly
`:default: 0`), while a None default never renders a default line; every rendered
default line reaches the final help-record body. -/
theorem C4_default_line (opt : Param) :
    (_help_record_default_extras opt ≠ [] ↔
      (opt.default ≠ none ∧ opt.show_default.truthy = true)) ∧
    (∀ l ∈ _help_record_default_extras opt,
      l ∈ _help_record_body opt ∧ ∃ rest, l = ":default: " ++ rest) ∧
    (opt.default = some (PyValue.scalar (PyAtom.int 0)) →
      opt.show_default = ShowDefault.bool true →
      _help_record_default_extras opt = [":default: 0"]) := by
  refine ⟨?_, ?_, ?_⟩
  · cases hd : opt.default with
    | none => simp [_help_record_default_extras, hd]
    | some d =>
      cases hs : opt.show_default with
      | str s =>
        cases ht : ShowDefault.truthy (.str s) with
        | false => simp [_help_record_default_extras, hd, hs, ht]
        | true => simp [_help_record_default_extras, hd, hs, ht]
      | bool b =>
        cases b with
        | false => simp [_help_record_default_extras, hd, hs, ShowDefault.truthy]
        | true =>
          cases d with
          | scalar a => simp [_help_record_default_extras, hd, hs, ShowDefault.truthy]
          | seq xs => simp [_help_record_default_extras, hd, hs, ShowDefault.truthy]
  · intro l hl
    refine ⟨mem_body_of_mem_extras opt l ?_, ?_⟩
    · unfold _help_record_extras
      exact List.mem_append_left _ hl
    · revert hl
      cases hd : opt.default with
      | none =>
        intro hl
        simp [_help_record_default_extras, hd] at hl
      | some d =>
        cases hs : opt.show_default with
        | str s =>
          cases ht : ShowDefault.truthy (.str s) with
          | false =>
            intro hl
            simp [_help_record_default_extras, hd, hs, ht] at hl
          | true =>
            intro hl
            simp only [_help_record_default_extras, hd, hs, ht, if_true,
              List.mem_singleton] at hl
            exact ⟨s, hl⟩
        | bool b =>
          cases b with
          | false =>
            intro hl
            simp [_help_record_default_extras, hd, hs, ShowDefault.truthy] at hl
          | true =>
            cases d with
            | scalar a =>
              intro hl
              simp only [_help_record_default_extras, hd, hs, ShowDefault.truthy, if_true,
                List.mem_singleton] at hl
              exact ⟨pyAtomStr a, hl⟩
            | seq xs =>
              intro hl
              simp only [_help_record_default_extras, hd, hs, ShowDefault.truthy, if_true,
                List.mem_singleton] at hl
              exact ⟨joinSep ", " (xs.map pyAtomStr), hl⟩
  · intro h1 h2
    simp only [_help_record_default_extras, h1, h2, ShowDefault.truthy]
    decide

/-- C4 (witness): the option `zeroOpt` with default 0 and `show_default=True`
renders exactly the `:default: 0` line. -/
theorem C4_witness : _help_record_default_extras zeroOpt = [":default: 0"] :=
  (C4_default_line zeroOpt).2.2 rfl rfl

/-- C5 (counterexample): in the group whose only sub-command is hidden, no
non-hidden sub-command passes the filter, yet under `short` mode the produced
lines do contain the Commands rubric — contradicting the claim that the section
is present exactly when a non-hidden sub-command passes the filter. -/
theorem C5_counterexample :
    (∀ c ∈ _filter_commands ghostCtx none, c.hidden = true) ∧
    ".. rubric:: Commands" ∈ _format_command ghostCtx (some NestedOption.NESTED_SHORT) none := by
  exact ⟨by decide, by decide⟩

/-- C5 (amended): the commands block is empty under `full` and `none`; under
`short` or the unset default it contains the Commands rubric exactly when the
filtered sub-command list is nonempty — hidden sub-commands included, only the
stub listing skips them. -/
theorem C5_commands_section_presence (ctx : Context) (nested : Option NestedOption)
    (commands : Option String) :
    ((nested = some NestedOption.NESTED_FULL ∨ nested = some NestedOption.NESTED_NONE) →
      commandsSection ctx nested commands = []) ∧
    (¬(nested = some NestedOption.NESTED_FULL ∨ nested = some NestedOption.NESTED_NONE) →
      ((".. rubric:: Commands" ∈ commandsSection ctx nested commands) ↔
        _filter_commands ctx commands ≠ [])) := by
  constructor
  · intro hn
    simp [commandsSection, hn]
  · intro hn
    rw [mem_commandsSection_iff]
    simp [hn]

/-- C5 (witness): the amended theorem applied under `nested=full` to the concrete
three-command group: the commands block is empty. -/
theorem C5_witness :
    commandsSection greekCtx (some NestedOption.NESTED_FULL) none = [] :=
  (C5_commands_section_presence greekCtx (some NestedOption.NESTED_FULL) none).1 (Or.inl rfl)

theorem filter_commands_of_no_subcommands (ctx : Context) (commands : Option String)
    (hc : ctx.command.commands = []) : _filter_commands ctx commands = [] := by
  cases commands with
  | none => simp [_filter_commands, hc, List.insertionSort]
  | some s =>
    simp only [_filter_commands, hc]
    rw [List.filterMap_eq_nil_iff]
    intro a _
    simp [lookupFind]

theorem commandsSection_of_filter_nil (ctx : Context) (nested : Option NestedOption)
    (commands : Option String) (h : _filter_commands ctx commands = []) :
    commandsSection ctx nested commands = [] := by
  by_cases hn : nested = some NestedOption.NESTED_FULL ∨ nested = some NestedOption.NESTED_NONE
  · simp [commandsSection, hn]
  · simp [commandsSection, hn, h]

/-- C6 (counterexample): in the group whose only sub-command is hidden, the stub
formatter contributes zero lines, yet under `short` mode the output contains the
Commands rubric — contradicting the claimed if-and-only-if between a rubric and
a nonempty formatter body. -/
theorem C6_counterexample :
    ".. rubric:: Commands" ∈ _format_command stealthCtx (some NestedOption.NESTED_SHORT) none ∧
    ((_filter_commands stealthCtx none).flatMap
      (fun c => if c.hidden then [] else _format_subcommand c ++ [""])) = [] := by
  exact ⟨by decide, by decide⟩

/-- C6 (amended): a non-hidden command is assembled in the fixed order description,
program directive, usage, options, arguments, environment variables, epilog,
commands; the Options, Arguments and Environment-variables rubrics appear exactly
when their formatter produced lines, while the Commands rubric appears exactly
when the filtered sub-command list is nonempty (possibly over an empty stub body
when every filtered sub-command is hidden); a command with no parameters, no help
text and no sub-commands produces only the program directive and the usage block. -/
theorem C6_section_structure (ctx : Context) (nested : Option NestedOption)
    (commands : Option String) :
    (ctx.command.hidden = false →
      _format_command ctx nested commands =
        _format_description ctx ++ [".. program:: " ++ ctx.command_path] ++
          _format_usage ctx ++ optionsSection ctx ++ argumentsSection ctx ++
          envvarsSection ctx ++ _format_epilog ctx ++
          commandsSection ctx nested commands) ∧
    ((".. rubric:: Options" ∈ optionsSection ctx) ↔ _format_options ctx ≠ []) ∧
    ((".. rubric:: Arguments" ∈ argumentsSection ctx) ↔ _format_arguments ctx ≠ []) ∧
    ((".. rubric:: Environment variables" ∈ envvarsSection ctx) ↔
      _format_envvars ctx ≠ []) ∧
    ((".. rubric:: Commands" ∈ commandsSection ctx nested commands) ↔
      (¬(nested = some NestedOption.NESTED_FULL ∨ nested = some NestedOption.NESTED_NONE) ∧
        _filter_commands ctx commands ≠ [])) ∧
    (ctx.command.params = [] → ctx.command.help = "" → ctx.command.short_help = "" →
      ctx.command.epilog = "" → ctx.command.commands = [] → ctx.command.hidden = false →
      _format_command ctx nested commands =
        [".. program:: " ++ ctx.command_path] ++ _format_usage ctx) := by
  refine ⟨?_, mem_optionsSection_iff ctx, mem_argumentsSection_iff ctx,
    mem_envvarsSection_iff ctx, mem_commandsSection_iff ctx nested commands, ?_⟩
  · intro hhid
    simp [_format_command, hhid]
  · intro hp hh hsh hep hc hhid
    have hpt : pyTruthy "" = false := rfl
    have h1 : _format_description ctx = [] := by
      simp [_format_description, hh, hsh, hpt]
    have h2 : _format_options ctx = [] := by simp [_format_options, hp]
    have h3 : _format_arguments ctx = [] := by simp [_format_arguments, hp]
    have h4 : _format_envvars ctx = [] := by simp [_format_envvars, hp]
    have h5 : _format_epilog ctx = [] := by simp [_format_epilog, hep, hpt]
    have h6 : commandsSection ctx nested commands = [] :=
      commandsSection_of_filter_nil ctx nested commands
        (filter_commands_of_no_subcommands ctx commands hc)
    simp [_format_command, hhid, h1, h2, h3, h4, h5, h6, optionsSection,
      argumentsSection, envvarsSection]

/-- C6 (witness): the amended theorem applied to the concrete empty command: its
output is exactly the program directive followed by the usage block. -/
theorem C6_witness :
    _format_command emptyCtx (some NestedOption.NESTED_SHORT) none =
      [".. program:: " ++ emptyCtx.command_path] ++ _format_usage emptyCtx :=
  (C6_section_structure emptyCtx (some NestedOption.NESTED_SHORT) none).2.2.2.2.2
    rfl rfl rfl rfl rfl rfl

/-- C7 (counterexample): with sub-commands alpha, beta, gamma and the filter string
"alpha, alpha", the filtered result lists alpha twice — duplicates do not collapse
to a single occurrence. -/
theorem C7_counterexample :
    (_filter_commands greekCtx (some "alpha, alpha")).map Cmd.name = ["alpha", "alpha"] ∧
    (_filter_commands greekCtx (some "alpha, alpha")).length ≠ 1 := by
  exact ⟨by decide, by decide⟩

/-- C7 (amended): the command filter is not idempotent on duplicated tokens: every
occurrence of a known name token contributes the looked-up sub-command again, so
the filtered result names the command at least as often as the token occurs. -/
theorem C7_duplicate_tokens_retained (ctx : Context) (s n : String) (c : Cmd)
    (h : lookupFind ctx.command.commands n = some c) :
    List.count n ((strSplitOnChar ',' s).map stripStr) ≤
      List.count c.name ((_filter_commands ctx (some s)).map Cmd.name) := by
  simp only [_filter_commands]
  exact count_name_filterMap _ n c h _

/-- C7 (witness): the amended theorem applied to the duplicated filter string
"alpha, alpha" over the three-command group. -/
theorem C7_witness :
    List.count "alpha" ((strSplitOnChar ',' "alpha, alpha").map stripStr) ≤
      List.count alphaCmd.name
        ((_filter_commands greekCtx (some "alpha, alpha")).map Cmd.name) :=
  C7_duplicate_tokens_retained greekCtx "alpha, alpha" "alpha" alphaCmd rfl

/-- C8 (confirmed): a hidden command produces an empty line sequence in the
assembler regardless of disclosure mode and filter, and the node generator
returns an empty node list for it immediately. -/
theorem C8_hidden_command_empty (ctx : Context) (nested : Option NestedOption)
    (commands : Option String) (serial : Nat) (nm : String) (command : Cmd)
    (parent : Option Context) (h1 : ctx.command.hidden = true)
    (h2 : command.hidden = true) :
    _format_command ctx nested commands = [] ∧
    ClickDirective._generate_nodes serial nm command parent nested commands = [] := by
  constructor
  · simp [_format_command, h1]
  · simp [ClickDirective._generate_nodes, h2]

/-- C8 (witness): the theorem applied to the concrete hidden command. -/
theorem C8_witness :
    _format_command hiddenCtx (some NestedOption.NESTED_SHORT) none = [] ∧
    ClickDirective._generate_nodes 0 "hid" hiddenCmd none
      (some NestedOption.NESTED_SHORT) none = [] :=
  C8_hidden_command_empty hiddenCtx (some NestedOption.NESTED_SHORT) none 0 "hid"
    hiddenCmd none rfl rfl

/-- C9 (confirmed): with `prog` supplied, the directive errors exactly when the
deprecated `show-nested` flag and a `nested` value are both present; with only
`show-nested` it emits the deprecation warning (the boolean in the result) and
behaves as `nested=full`. -/
theorem C9_nested_show_nested (command : Cmd) (opts : DirectiveOptions) (serial : Nat)
    (p : String) (hprog : opts.prog = some p) :
    (ClickDirective.run command opts serial =
        Except.error DirectiveError.nested_show_nested_conflict ↔
      (opts.show_nested = true ∧ opts.nested ≠ none)) ∧
    (opts.show_nested = true → opts.nested = none →
      ClickDirective.run command opts serial =
        Except.ok (true, ClickDirective._generate_nodes serial p command none
          (some NestedOption.NESTED_FULL) opts.commands)) := by
  cases hsn : opts.show_nested with
  | false =>
    cases hne : opts.nested with
    | none => simp [ClickDirective.run, hprog, hsn, hne]
    | some v => simp [ClickDirective.run, hprog, hsn, hne]
  | true =>
    cases hne : opts.nested with
    | none => simp [ClickDirective.run, hprog, hsn, hne]
    | some v => simp [ClickDirective.run, hprog, hsn, hne]

/-- C9 (witness): supplying only `show-nested` over the concrete group: the run
succeeds, records the deprecation warning and renders under `full`. -/
theorem C9_witness :
    ClickDirective.run cliGroup snOpts 0 =
      Except.ok (true, ClickDirective._generate_nodes 0 "cli" cliGroup none
        (some NestedOption.NESTED_FULL) snOpts.commands) :=
  (C9_nested_show_nested cliGroup snOpts 0 "cli" rfl).2 rfl rfl

/-- C10 (confirmed): the argument formatter emits a Default line exactly when the
argument is not required — including a `Default ``None``` line when no default
exists — and a required argument never gets a Default line; the presence of the
line depends only on the required flag. -/
theorem C10_argument_default_line (arg : Param) :
    ((∃ l ∈ _format_argument_tail arg, isDefaultLine l = true) ↔ arg.required = false) ∧
    (arg.required = false →
      ("    Default ``" ++ pyReprOpt arg.default ++ "``") ∈ _format_argument arg) ∧
    (arg.required = false → arg.default = none →
      "    Default ``None``" ∈ _format_argument arg) := by
  have hmem : arg.required = false →
      ("    Default ``" ++ pyReprOpt arg.default ++ "``") ∈ _format_argument arg := by
    intro hreq
    unfold _format_argument
    refine List.mem_append_right _ ?_
    simp [_format_argument_tail, hreq]
  refine ⟨⟨?_, ?_⟩, hmem, ?_⟩
  · rintro ⟨l, hl, hdef⟩
    cases hreq : arg.required with
    | false => rfl
    | true =>
      simp only [_format_argument_tail, hreq, if_true, List.mem_singleton] at hl
      subst hl
      by_cases hn : arg.nargs = 1 <;> simp only [_argument_plural, hn, if_true,
        if_false] at hdef <;> exact absurd hdef (by decide)
  · intro hreq
    refine ⟨"    Default ``" ++ pyReprOpt arg.default ++ "``", ?_, ?_⟩
    · simp [_format_argument_tail, hreq]
    · rw [String.append_assoc]
      exact isDefaultLine_append _
  · intro hreq hdef
    have h := hmem hreq
    rw [hdef] at h
    have heq : ("    Default ``" ++ pyReprOpt none ++ "``") = "    Default ``None``" := by
      decide
    rw [heq] at h
    exact h

/-- C10 (witness): the theorem applied to the concrete optional argument with no
default: the rendered lines contain `Default ``None```. -/
theorem C10_witness : "    Default ``None``" ∈ _format_argument optArg :=
  (C10_argument_default_line optArg).2.2 rfl rfl
